import Mathlib

/-
Verification of the Garman-Kohlhagen FX pricing notebook: a shallow
embedding over the reals of the pricing engine and of the two-phase
implied-volatility solver (Newton-Raphson with a bisection fallback),
followed by theorems about the claims of the specification.
-/

open Real MeasureTheory Set

noncomputable section

/- Input limits for the GBS models, mirroring the class of limits in the
source notebook. -/
namespace GBS_Limites

def MAX32 : ℝ := 2147483248

def MIN_T : ℝ := 1 / 1000
def MIN_X : ℝ := 0.01
def MIN_FS : ℝ := 0.01
def MIN_V : ℝ := 0.005

def MAX_T : ℝ := 100
def MAX_X : ℝ := MAX32
def MAX_FS : ℝ := MAX32

def MIN_b : ℝ := -1
def MIN_r : ℝ := -1

def MAX_b : ℝ := 1
def MAX_r : ℝ := 1
def MAX_V : ℝ := 1

end GBS_Limites

open GBS_Limites

/-- Diagnostics emitted by the input checks: each constructor stands for one
of the printed messages of the source. Printing is modelled as returning a
list of diagnostics; the pricing computation ignores it. -/
inductive Diag where
  | bad_option_type
  | bad_strike
  | bad_spot
  | bad_time
  | bad_carry
  | bad_rate
  | bad_vol
deriving DecidableEq

/-- Check of the call/put indicator: prints (here: emits a diagnostic) when
the option type is neither c nor p. -/
def _test_option_type (option_type : String) : List Diag :=
  if option_type ≠ "c" ∧ option_type ≠ "p" then [Diag.bad_option_type] else []

/-- Input-range checks of the source: each out-of-range input produces one
printed message, modelled as one diagnostic in the returned list. -/
def _gbs_test_inputs (option_type : String) (fs x t r b v : ℝ) : List Diag :=
  _test_option_type option_type ++
  (if x < MIN_X ∨ x > MAX_X then [Diag.bad_strike] else []) ++
  (if fs < MIN_FS ∨ fs > MAX_FS then [Diag.bad_spot] else []) ++
  (if t < MIN_T ∨ t > MAX_T then [Diag.bad_time] else []) ++
  (if b < MIN_b ∨ b > MAX_b then [Diag.bad_carry] else []) ++
  (if r < MIN_r ∨ r > MAX_r then [Diag.bad_rate] else []) ++
  (if v < MIN_V ∨ v > MAX_V then [Diag.bad_vol] else [])

/-- Density of the standard normal distribution, the mathematical content of
norm.pdf in the source. -/
def normPdf (z : ℝ) : ℝ := Real.exp (-(z ^ 2) / 2) / Real.sqrt (2 * Real.pi)

/-- Cumulative distribution function of the standard normal distribution,
the mathematical content of norm.cdf in the source. -/
def normCdf (z : ℝ) : ℝ := ∫ u in Iic z, normPdf u

/-- Result of one pricing call: the six components returned by the pricing
function of the source. -/
structure PricingResult where
  value : ℝ
  delta : ℝ
  gamma : ℝ
  theta : ℝ
  vega : ℝ
  rho : ℝ

/-- The generalized Black-Scholes pricing function of the source: inputs are
the option type (c or p), forward/spot fs, strike x, time t, rate r, cost of
carry b and volatility v; output is price and the five sensitivities. The
input checks only emit diagnostics and never alter the computation. -/
def _gbs (option_type : String) (fs x t r b v : ℝ) : PricingResult :=
  let _diags := _gbs_test_inputs option_type fs x t r b v
  let t__sqrt := Real.sqrt t
  let d1 := (Real.log (fs / x) + (b + (v * v) / 2) * t) / (v * t__sqrt)
  let d2 := d1 - v * t__sqrt
  if option_type = "c" then
    { value := fs * Real.exp ((b - r) * t) * normCdf d1 -
        x * Real.exp (-r * t) * normCdf d2
      delta := Real.exp ((b - r) * t) * normCdf d1
      gamma := Real.exp ((b - r) * t) * normPdf d1 / (fs * v * t__sqrt)
      theta := -(fs * v * Real.exp ((b - r) * t) * normPdf d1) / (2 * t__sqrt) -
        (b - r) * fs * Real.exp ((b - r) * t) * normCdf d1 -
        r * x * Real.exp (-r * t) * normCdf d2
      vega := Real.exp ((b - r) * t) * fs * t__sqrt * normPdf d1
      rho := x * t * Real.exp (-r * t) * normCdf d2 }
  else
    { value := x * Real.exp (-r * t) * normCdf (-d2) -
        fs * Real.exp ((b - r) * t) * normCdf (-d1)
      delta := -Real.exp ((b - r) * t) * normCdf (-d1)
      gamma := Real.exp ((b - r) * t) * normPdf d1 / (fs * v * t__sqrt)
      theta := -(fs * v * Real.exp ((b - r) * t) * normPdf d1) / (2 * t__sqrt) +
        (b - r) * fs * Real.exp ((b - r) * t) * normCdf (-d1) +
        r * x * Real.exp (-r * t) * normCdf (-d2)
      vega := Real.exp ((b - r) * t) * fs * t__sqrt * normPdf d1
      rho := -x * t * Real.exp (-r * t) * normCdf (-d2) }

/-- Closed-form starting estimate of the implied volatility, mirroring the
rational approximation of the source (the local name b of the source that
shadows the carry is rendered as b2 here). -/
def _vol_implicite_approx (option_type : String) (fs x t r b cp : ℝ) : ℝ :=
  let _diags := _test_option_type option_type
  let ebrt := Real.exp ((b - r) * t)
  let ert := Real.exp (-r * t)
  let a := Real.sqrt (2 * Real.pi) / (fs * ebrt + x * ert)
  let payoff := if option_type = "c" then fs * ebrt - x * ert else x * ert - fs * ebrt
  let b2 := cp - payoff / 2
  let c := payoff ^ 2 / Real.pi
  (a * (b2 + Real.sqrt (b2 ^ 2 + c))) / Real.sqrt t

/-- Failure value of the solver, modelling the exception of the source: it
carries the best volatility estimate, the residual price difference and the
requested precision that the raised message interpolates. -/
structure GBS_CalculationError where
  best : ℝ
  diff : ℝ
  precision : ℝ

/-- Shape of the pricing oracle passed to the solver phases, mirroring the
val_fn parameter of the source: option type, fs, x, t, r, b, v. -/
def ValFn : Type :=
  String → ℝ → ℝ → ℝ → ℝ → ℝ → ℝ → PricingResult

/-- State of the bisection loop: the bracket, the current midpoint and the
price at the midpoint. -/
structure BisectState where
  v_low : ℝ
  v_high : ℝ
  v_mid : ℝ
  cp_mid : ℝ

/-- Bracket initialisation of the bisection phase: re-derive the closed-form
estimate as the midpoint; if it lies at or outside the admissible band,
search the whole band from its midpoint, otherwise shrink the bracket around
the estimate; then price the midpoint. -/
def bisectInit (val_fn : ValFn) (option_type : String) (fs x t r b cp : ℝ) :
    BisectState :=
  let v_mid := _vol_implicite_approx option_type fs x t r b cp
  if v_mid ≤ MIN_V ∨ v_mid ≥ MAX_V then
    let v_low := MIN_V
    let v_high := MAX_V
    let v_mid2 := (v_low + v_high) / 2
    { v_low := v_low, v_high := v_high, v_mid := v_mid2
      cp_mid := (val_fn option_type fs x t r b v_mid2).value }
  else
    { v_low := max MIN_V (v_mid * 0.5), v_high := min MAX_V (v_mid * 1.5)
      v_mid := v_mid, cp_mid := (val_fn option_type fs x t r b v_mid).value }

/-- One-sided interpolation loop of the bisection phase, fuel-indexed by the
remaining step budget: while the residual exceeds the precision, move the
bracket, interpolate a new midpoint, clamp it into the band and reprice. -/
def bisectLoop (val_fn : ValFn) (option_type : String) (fs x t r b cp precision : ℝ) :
    ℕ → BisectState → BisectState
  | 0, s => s
  | n + 1, s =>
    if |cp - s.cp_mid| > precision then
      let v_low := if s.cp_mid < cp then s.v_mid else s.v_low
      let v_high := if s.cp_mid < cp then s.v_high else s.v_mid
      let cp_low := (val_fn option_type fs x t r b v_low).value
      let cp_high := (val_fn option_type fs x t r b v_high).value
      let v_mid := v_low + (cp - cp_low) * (v_high - v_low) / (cp_high - cp_low)
      let v_mid2 := min MAX_V (max MIN_V v_mid)
      let cp_mid := (val_fn option_type fs x t r b v_mid2).value
      bisectLoop val_fn option_type fs x t r b cp precision n
        { v_low := v_low, v_high := v_high, v_mid := v_mid2, cp_mid := cp_mid }
    else s

/-- Final state of the bisection phase after the step budget. -/
def bisectFinal (val_fn : ValFn) (option_type : String)
    (fs x t r b cp precision : ℝ) (max_steps : ℕ) : BisectState :=
  bisectLoop val_fn option_type fs x t r b cp precision max_steps
    (bisectInit val_fn option_type fs x t r b cp)

/-- Bisection search for the implied volatility, mirroring the fallback
function of the source: succeed with the midpoint when the residual is below
the precision, otherwise fail with the best estimate, the residual and the
precision. -/
def _rech_dichotomique_vol_implicite (val_fn : ValFn) (option_type : String)
    (fs x t r b cp precision : ℝ) (max_steps : ℕ) :
    Except GBS_CalculationError ℝ :=
  let s := bisectFinal val_fn option_type fs x t r b cp precision max_steps
  if |cp - s.cp_mid| < precision then Except.ok s.v_mid
  else Except.error { best := s.v_mid, diff := |cp - s.cp_mid|, precision := precision }

/-- State of the Newton-Raphson loop: the current volatility, the last
pricing result and the smallest residual seen so far. -/
structure NewtonState where
  v : ℝ
  res : PricingResult
  min_diff : ℝ

/-- Newton-Raphson loop of the source, fuel-indexed by the remaining step
budget. The loop continues only while the residual lies between the
precision and the smallest residual seen so far; when the updated volatility
leaves the admissible band the loop stops at once, keeping the unclamped
volatility and without a further pricing call. -/
def newtonLoop (val_fn : ValFn) (option_type : String) (fs x t r b cp precision : ℝ) :
    ℕ → NewtonState → NewtonState
  | 0, s => s
  | n + 1, s =>
    if precision ≤ |cp - s.res.value| ∧ |cp - s.res.value| ≤ s.min_diff then
      let v := s.v - (s.res.value - cp) / s.res.vega
      if v > MAX_V ∨ v < MIN_V then { s with v := v }
      else
        let res := val_fn option_type fs x t r b v
        newtonLoop val_fn option_type fs x t r b cp precision n
          { v := v, res := res, min_diff := min (|cp - res.value|) s.min_diff }
    else s

/-- Initial Newton-Raphson state: the closed-form estimate clamped into the
admissible band, its pricing result and its residual. -/
def newtonInit (val_fn : ValFn) (option_type : String) (x fs t b r cp : ℝ) :
    NewtonState :=
  let v := min MAX_V (max MIN_V (_vol_implicite_approx option_type fs x t r b cp))
  let res := val_fn option_type fs x t r b v
  { v := v, res := res, min_diff := |cp - res.value| }

/-- Final Newton-Raphson state after the step budget. -/
def newtonFinal (val_fn : ValFn) (option_type : String)
    (x fs t b r cp precision : ℝ) (max_steps : ℕ) : NewtonState :=
  newtonLoop val_fn option_type fs x t r b cp precision max_steps
    (newtonInit val_fn option_type x fs t b r cp)

/-- Newton-Raphson search for the implied volatility, mirroring the source:
when the final residual is below the precision return the current
volatility, otherwise fall through to the bisection search. -/
def _newton_vol_implicite (val_fn : ValFn) (option_type : String)
    (x fs t b r cp precision : ℝ) (max_steps : ℕ) :
    Except GBS_CalculationError ℝ :=
  let _diags := _test_option_type option_type
  let s := newtonFinal val_fn option_type x fs t b r cp precision max_steps
  if |cp - s.res.value| < precision then Except.ok s.v
  else _rech_dichotomique_vol_implicite val_fn option_type fs x t r b cp precision max_steps

/-- Implied volatility of a European GBS option, delegating to the
Newton-Raphson search with the pricing function as the oracle. -/
def _gbs_vol_implicite (option_type : String) (fs x t r b cp precision : ℝ)
    (max_steps : ℕ) : Except GBS_CalculationError ℝ :=
  _newton_vol_implicite _gbs option_type x fs t b r cp precision max_steps

/-- Black-Scholes pricing of equity options: carry equals the rate. -/
def black_scholes (option_type : String) (fs x t r v : ℝ) : PricingResult :=
  _gbs option_type fs x t r r v

/-- Garman-Kohlhagen pricing of FX options: carry is the rate differential. -/
def garman_kohlhagen (option_type : String) (fs x t r rf v : ℝ) : PricingResult :=
  _gbs option_type fs x t r (r - rf) v

/-- Implied volatility of a European option with dividend yield q, using the
default precision and step budget of the source. -/
def euro_vol_implicite (option_type : String) (fs x t r q cp : ℝ) :
    Except GBS_CalculationError ℝ :=
  _gbs_vol_implicite option_type fs x t r (r - q) cp 0.00001 100

/-- Boolean success discriminator for a solver outcome. -/
def exceptIsOk {e a : Type} : Except e a → Bool
  | Except.ok _ => true
  | Except.error _ => false

/-- The standard normal density rewritten with the exponent in the shape of
the Gaussian integral lemmas. -/
lemma normPdf_eq_gauss :
    normPdf = fun z : ℝ => Real.exp (-(1 / 2 : ℝ) * z ^ 2) * (Real.sqrt (2 * Real.pi))⁻¹ := by
  funext z
  unfold normPdf
  rw [div_eq_mul_inv]
  congr 2
  ring

/-- The standard normal density is integrable. -/
lemma integrable_normPdf : Integrable normPdf := by
  rw [normPdf_eq_gauss]
  exact (integrable_exp_neg_mul_sq (by norm_num)).mul_const _

/-- The standard normal density integrates to one. -/
lemma integral_normPdf : (∫ z : ℝ, normPdf z) = 1 := by
  rw [normPdf_eq_gauss]
  rw [MeasureTheory.integral_mul_right, integral_gaussian]
  rw [show (Real.pi / (1 / 2) : ℝ) = 2 * Real.pi by ring]
  exact mul_inv_cancel₀ (by positivity)

/-- The standard normal density is even. -/
lemma normPdf_neg (z : ℝ) : normPdf (-z) = normPdf z := by
  unfold normPdf
  rw [neg_sq]

/-- Reflection identity of the standard normal distribution function. -/
lemma normCdf_neg (z : ℝ) : normCdf (-z) = 1 - normCdf z := by
  have heven : (fun u : ℝ => normPdf (-u)) = normPdf := funext fun u => normPdf_neg u
  have h1 : (∫ u in Ioi z, normPdf u) = ∫ u in Iic (-z), normPdf u := by
    rw [← integral_comp_neg_Ioi, heven]
  have h2 : (∫ u in Iic z, normPdf u) + (∫ u in Ioi z, normPdf u) = 1 := by
    rw [intervalIntegral.integral_Iic_add_Ioi integrable_normPdf.integrableOn
      integrable_normPdf.integrableOn]
    exact integral_normPdf
  unfold normCdf
  rw [← h1]
  linarith

/-- Claim C5: for a call with in-range inputs the pricing function returns
the Garman-Kohlhagen value and vega built from d1 and d2, with the standard
normal distribution function and density. -/
theorem gbs_call_value_vega (fs x t r b v : ℝ)
    (hfs : 0 < fs) (hx : 0 < x) (ht : 0 < t) (hv : 0 < v) :
    (_gbs "c" fs x t r b v).value =
      fs * Real.exp ((b - r) * t) *
        normCdf ((Real.log (fs / x) + (b + v ^ 2 / 2) * t) / (v * Real.sqrt t)) -
      x * Real.exp (-r * t) *
        normCdf ((Real.log (fs / x) + (b + v ^ 2 / 2) * t) / (v * Real.sqrt t) -
          v * Real.sqrt t) ∧
    (_gbs "c" fs x t r b v).vega =
      Real.exp ((b - r) * t) * fs * Real.sqrt t *
        normPdf ((Real.log (fs / x) + (b + v ^ 2 / 2) * t) / (v * Real.sqrt t)) := by
  have hsq : v * v = v ^ 2 := (pow_two v).symm
  constructor
  · simp only [_gbs, if_true]
    rw [hsq]
  · simp only [_gbs, if_true]
    rw [hsq]

/-- Witness for claim C5 at concrete in-range inputs. -/
theorem gbs_call_value_vega_witness :
    (0 < (1 : ℝ) ∧ 0 < (1 : ℝ)) ∧
    ((_gbs "c" 1 1 1 0 0 1).value =
      1 * Real.exp ((0 - 0) * 1) *
        normCdf ((Real.log (1 / 1) + (0 + 1 ^ 2 / 2) * 1) / (1 * Real.sqrt 1)) -
      1 * Real.exp (-0 * 1) *
        normCdf ((Real.log (1 / 1) + (0 + 1 ^ 2 / 2) * 1) / (1 * Real.sqrt 1) -
          1 * Real.sqrt 1) ∧
    (_gbs "c" 1 1 1 0 0 1).vega =
      Real.exp ((0 - 0) * 1) * 1 * Real.sqrt 1 *
        normPdf ((Real.log (1 / 1) + (0 + 1 ^ 2 / 2) * 1) / (1 * Real.sqrt 1))) :=
  ⟨⟨by norm_num, by norm_num⟩,
    gbs_call_value_vega 1 1 1 0 0 1 (by norm_num) (by norm_num) (by norm_num) (by norm_num)⟩

/-- Claim C7: put-call parity of the pricing function: the call value minus
the put value at identical parameters equals the forward minus the
discounted strike. -/
theorem put_call_parity (fs x t r b v : ℝ) :
    (_gbs "c" fs x t r b v).value - (_gbs "p" fs x t r b v).value =
      fs * Real.exp ((b - r) * t) - x * Real.exp (-r * t) := by
  have hpc : (("p" : String) = "c") = False := eq_false (by decide)
  simp only [_gbs, if_true, hpc, if_false]
  rw [normCdf_neg, normCdf_neg]
  ring

/-- Claim C10: gamma and vega agree between the call and the put branch and
both equal the shared formulas in the density at d1. -/
theorem gamma_vega_call_put_identical (fs x t r b v : ℝ) :
    (_gbs "c" fs x t r b v).gamma = (_gbs "p" fs x t r b v).gamma ∧
    (_gbs "c" fs x t r b v).vega = (_gbs "p" fs x t r b v).vega ∧
    (_gbs "c" fs x t r b v).gamma =
      Real.exp ((b - r) * t) *
        normPdf ((Real.log (fs / x) + (b + v ^ 2 / 2) * t) / (v * Real.sqrt t)) /
        (fs * v * Real.sqrt t) ∧
    (_gbs "c" fs x t r b v).vega =
      Real.exp ((b - r) * t) * fs * Real.sqrt t *
        normPdf ((Real.log (fs / x) + (b + v ^ 2 / 2) * t) / (v * Real.sqrt t)) := by
  have hsq : v * v = v ^ 2 := (pow_two v).symm
  have hpc : (("p" : String) = "c") = False := eq_false (by decide)
  refine ⟨?_, ?_, ?_, ?_⟩ <;>
    · simp only [_gbs, if_true, hpc, if_false]
      try rw [hsq]

/-- A Newton-Raphson state whose residual fails the loop guard is left
untouched by the loop, whatever fuel remains. -/
lemma newtonLoop_stopped (val_fn : ValFn) (option_type : String)
    (fs x t r b cp precision : ℝ) (fuel : ℕ) (s : NewtonState)
    (h : ¬(precision ≤ |cp - s.res.value| ∧ |cp - s.res.value| ≤ s.min_diff)) :
    newtonLoop val_fn option_type fs x t r b cp precision fuel s = s := by
  cases fuel with
  | zero => rfl
  | succ n =>
    simp only [newtonLoop]
    rw [if_neg h]

/-- Claim C1: the Newton-Raphson loop runs only while the residual lies
between the precision and the smallest residual seen so far and fuel
remains: it is the identity on exhausted fuel, on any state whose residual
exceeds the best seen so far, and on any state already within precision;
and when the final residual has not reached the precision the solver hands
over to the bisection phase. -/
theorem newton_monotonic_guard (val_fn : ValFn) (option_type : String)
    (x fs t b r cp precision : ℝ) (max_steps : ℕ) :
    (∀ s : NewtonState, newtonLoop val_fn option_type fs x t r b cp precision 0 s = s) ∧
    (∀ (fuel : ℕ) (s : NewtonState), s.min_diff < |cp - s.res.value| →
      newtonLoop val_fn option_type fs x t r b cp precision fuel s = s) ∧
    (∀ (fuel : ℕ) (s : NewtonState), |cp - s.res.value| < precision →
      newtonLoop val_fn option_type fs x t r b cp precision fuel s = s) ∧
    (precision ≤
        |cp - (newtonFinal val_fn option_type x fs t b r cp precision max_steps).res.value| →
      _newton_vol_implicite val_fn option_type x fs t b r cp precision max_steps =
        _rech_dichotomique_vol_implicite val_fn option_type fs x t r b cp precision
          max_steps) := by
  refine ⟨fun s => rfl, ?_, ?_, ?_⟩
  · intro fuel s h
    exact newtonLoop_stopped _ _ _ _ _ _ _ _ _ _ _ fun hc => absurd hc.2 (not_le.mpr h)
  · intro fuel s h
    exact newtonLoop_stopped _ _ _ _ _ _ _ _ _ _ _ fun hc => absurd hc.1 (not_le.mpr h)
  · intro h
    simp only [_newton_vol_implicite]
    rw [if_neg (not_lt.mpr h)]

/-- Constant pricing oracle used by the witness of claim C1. -/
def valC1 : ValFn := fun _ _ _ _ _ _ _ =>
  { value := 0, delta := 0, gamma := 0, theta := 0, vega := 1, rho := 0 }

/-- Newton-Raphson state used by the witness of claim C1. -/
def sC1 : NewtonState :=
  { v := 1
    res := { value := 0, delta := 0, gamma := 0, theta := 0, vega := 1, rho := 0 }
    min_diff := 0.5 }

/-- Witness for claim C1 at a concrete oracle, state and inputs. -/
theorem newton_monotonic_guard_witness :
    sC1.min_diff < |(1 : ℝ) - sC1.res.value| ∧
    newtonLoop valC1 "c" 1 1 1 1 1 1 0.5 3 sC1 = sC1 ∧
    (0.5 : ℝ) ≤ |1 - (newtonFinal valC1 "c" 1 1 1 1 1 1 0.5 0).res.value| ∧
    _newton_vol_implicite valC1 "c" 1 1 1 1 1 1 0.5 0 =
      _rech_dichotomique_vol_implicite valC1 "c" 1 1 1 1 1 1 0.5 0 := by
  have h1 : sC1.min_diff < |(1 : ℝ) - sC1.res.value| := by
    simp only [sC1]
    norm_num
  have h2 : (0.5 : ℝ) ≤ |1 - (newtonFinal valC1 "c" 1 1 1 1 1 1 0.5 0).res.value| := by
    simp only [newtonFinal, newtonLoop, newtonInit, valC1]
    norm_num
  exact ⟨h1, (newton_monotonic_guard valC1 "c" 1 1 1 1 1 1 0.5 0).2.1 3 sC1 h1, h2,
    (newton_monotonic_guard valC1 "c" 1 1 1 1 1 1 0.5 0).2.2.2 h2⟩

/-- Claim C4: when an update step leaves the admissible volatility band the
Newton-Raphson loop stops at once, keeping the unclamped out-of-band
volatility with the previous pricing result (so the pricing function is not
evaluated at the out-of-band volatility), and the convergence test fails on
the resulting state. -/
theorem newton_out_of_band_aborts (val_fn : ValFn) (option_type : String)
    (fs x t r b cp precision : ℝ) (fuel : ℕ) (s : NewtonState)
    (h1 : precision ≤ |cp - s.res.value|)
    (h2 : |cp - s.res.value| ≤ s.min_diff)
    (h3 : s.v - (s.res.value - cp) / s.res.vega > MAX_V ∨
      s.v - (s.res.value - cp) / s.res.vega < MIN_V) :
    newtonLoop val_fn option_type fs x t r b cp precision (fuel + 1) s =
      { v := s.v - (s.res.value - cp) / s.res.vega, res := s.res,
        min_diff := s.min_diff } ∧
    ¬ |cp - (newtonLoop val_fn option_type fs x t r b cp precision
        (fuel + 1) s).res.value| < precision := by
  have hstep : newtonLoop val_fn option_type fs x t r b cp precision (fuel + 1) s =
      { v := s.v - (s.res.value - cp) / s.res.vega, res := s.res,
        min_diff := s.min_diff } := by
    simp only [newtonLoop]
    rw [if_pos (And.intro h1 h2), if_pos h3]
  refine ⟨hstep, ?_⟩
  rw [hstep]
  exact not_lt.mpr h1

/-- Constant pricing oracle used by the witness of claim C4. -/
def valC4 : ValFn := fun _ _ _ _ _ _ _ =>
  { value := 0, delta := 0, gamma := 0, theta := 0, vega := 1, rho := 0 }

/-- Newton-Raphson state used by the witness of claim C4: the update step
moves the volatility to 2, above the admissible band. -/
def sC4 : NewtonState :=
  { v := 1
    res := { value := 0, delta := 0, gamma := 0, theta := 0, vega := 1, rho := 0 }
    min_diff := 2 }

/-- Witness for claim C4 at a concrete oracle, state and inputs. -/
theorem newton_out_of_band_aborts_witness :
    ((0.5 : ℝ) ≤ |1 - sC4.res.value| ∧ |(1 : ℝ) - sC4.res.value| ≤ sC4.min_diff ∧
      sC4.v - (sC4.res.value - 1) / sC4.res.vega > MAX_V) ∧
    newtonLoop valC4 "c" 1 1 1 1 1 1 0.5 (4 + 1) sC4 =
      { v := sC4.v - (sC4.res.value - 1) / sC4.res.vega, res := sC4.res,
        min_diff := sC4.min_diff } ∧
    ¬ |1 - (newtonLoop valC4 "c" 1 1 1 1 1 1 0.5 (4 + 1) sC4).res.value| < 0.5 := by
  have h1 : (0.5 : ℝ) ≤ |1 - sC4.res.value| := by
    simp only [sC4]
    norm_num
  have h2 : |(1 : ℝ) - sC4.res.value| ≤ sC4.min_diff := by
    simp only [sC4]
    norm_num
  have h3 : sC4.v - (sC4.res.value - 1) / sC4.res.vega > MAX_V := by
    simp only [sC4, MAX_V]
    norm_num
  exact ⟨⟨h1, h2, h3⟩,
    newton_out_of_band_aborts valC4 "c" 1 1 1 1 1 1 0.5 4 sC4 h1 h2 (Or.inl h3)⟩

/-- A bisection state whose residual does not exceed the precision is left
untouched by the interpolation loop, whatever fuel remains. -/
lemma bisectLoop_stopped (val_fn : ValFn) (option_type : String)
    (fs x t r b cp precision : ℝ) (fuel : ℕ) (s : BisectState)
    (h : ¬ |cp - s.cp_mid| > precision) :
    bisectLoop val_fn option_type fs x t r b cp precision fuel s = s := by
  cases fuel with
  | zero => rfl
  | succ n =>
    simp only [bisectLoop]
    rw [if_neg h]

/-- Constant pricing oracle used by the counterexample and witness of
claim C3: it prices every volatility at zero. -/
def val0C3 : ValFn := fun _ _ _ _ _ _ _ =>
  { value := 0, delta := 0, gamma := 0, theta := 0, vega := 0, rho := 0 }

/-- Counterexample to claim C3 as stated: with a constant zero oracle,
target price 1 and precision 1, the final bisection residual equals the
precision, so the loop stops with diff at most the precision, yet the
phase raises instead of returning the midpoint, because the success test
of the code is strict. -/
theorem bisect_at_precision_raises :
    exceptIsOk (_rech_dichotomique_vol_implicite val0C3 "c" 1 1 1 1 1 1 1 100) = false ∧
    |(1 : ℝ) - (bisectFinal val0C3 "c" 1 1 1 1 1 1 1 100).cp_mid| ≤ 1 := by
  have hinit : (bisectInit val0C3 "c" 1 1 1 1 1 1).cp_mid = 0 := by
    simp only [bisectInit]
    split <;> rfl
  have hfinal : bisectFinal val0C3 "c" 1 1 1 1 1 1 1 100 =
      bisectInit val0C3 "c" 1 1 1 1 1 1 := by
    unfold bisectFinal
    apply bisectLoop_stopped
    rw [hinit]
    norm_num
  constructor
  · simp only [_rech_dichotomique_vol_implicite]
    rw [hfinal, hinit]
    rw [if_neg (by norm_num : ¬ |(1 : ℝ) - 0| < 1)]
    rfl
  · rw [hfinal, hinit]
    norm_num

/-- Claim C3 as amended: the interpolation loop stops once the residual is
at most the precision; the phase succeeds with the final midpoint exactly
when the final residual is strictly below the precision, and otherwise
(including a final residual equal to the precision) raises the
convergence failure carrying the final midpoint, the residual and the
precision. -/
theorem bisect_termination (val_fn : ValFn) (option_type : String)
    (fs x t r b cp precision : ℝ) (max_steps : ℕ) :
    (∀ (fuel : ℕ) (s : BisectState), |cp - s.cp_mid| ≤ precision →
      bisectLoop val_fn option_type fs x t r b cp precision fuel s = s) ∧
    (|cp - (bisectFinal val_fn option_type fs x t r b cp precision max_steps).cp_mid| <
        precision →
      _rech_dichotomique_vol_implicite val_fn option_type fs x t r b cp precision max_steps =
        Except.ok (bisectFinal val_fn option_type fs x t r b cp precision max_steps).v_mid) ∧
    (precision ≤
        |cp - (bisectFinal val_fn option_type fs x t r b cp precision max_steps).cp_mid| →
      _rech_dichotomique_vol_implicite val_fn option_type fs x t r b cp precision max_steps =
        Except.error
          { best := (bisectFinal val_fn option_type fs x t r b cp precision max_steps).v_mid
            diff :=
              |cp - (bisectFinal val_fn option_type fs x t r b cp precision max_steps).cp_mid|
            precision := precision }) := by
  refine ⟨?_, ?_, ?_⟩
  · intro fuel s h
    exact bisectLoop_stopped _ _ _ _ _ _ _ _ _ _ _ (not_lt.mpr h)
  · intro h
    simp only [_rech_dichotomique_vol_implicite]
    rw [if_pos h]
  · intro h
    simp only [_rech_dichotomique_vol_implicite]
    rw [if_neg (not_lt.mpr h)]

/-- Bisection state used by the witness of claim C3. -/
def sC3 : BisectState := { v_low := 1, v_high := 1, v_mid := 1, cp_mid := 1 }

/-- Witness for the amended claim C3 at a concrete oracle, state and
inputs. -/
theorem bisect_termination_witness :
    |(1 : ℝ) - sC3.cp_mid| ≤ 1 ∧
    bisectLoop val0C3 "c" 1 1 1 1 1 1 1 5 sC3 = sC3 ∧
    (1 : ℝ) ≤ |1 - (bisectFinal val0C3 "c" 1 1 1 1 1 1 1 100).cp_mid| ∧
    _rech_dichotomique_vol_implicite val0C3 "c" 1 1 1 1 1 1 1 100 =
      Except.error
        { best := (bisectFinal val0C3 "c" 1 1 1 1 1 1 1 100).v_mid
          diff := |1 - (bisectFinal val0C3 "c" 1 1 1 1 1 1 1 100).cp_mid|
          precision := 1 } := by
  have hinit : (bisectInit val0C3 "c" 1 1 1 1 1 1).cp_mid = 0 := by
    simp only [bisectInit]
    split <;> rfl
  have hfinal : bisectFinal val0C3 "c" 1 1 1 1 1 1 1 100 =
      bisectInit val0C3 "c" 1 1 1 1 1 1 := by
    unfold bisectFinal
    apply bisectLoop_stopped
    rw [hinit]
    norm_num
  have h1 : |(1 : ℝ) - sC3.cp_mid| ≤ 1 := by
    simp only [sC3]
    norm_num
  have h2 : (1 : ℝ) ≤ |1 - (bisectFinal val0C3 "c" 1 1 1 1 1 1 1 100).cp_mid| := by
    rw [hfinal, hinit]
    norm_num
  exact ⟨h1, (bisect_termination val0C3 "c" 1 1 1 1 1 1 1 100).1 5 sC3 h1, h2,
    (bisect_termination val0C3 "c" 1 1 1 1 1 1 1 100).2.2 h2⟩

/-- Membership in the admissible volatility band. -/
def inBand (v : ℝ) : Prop := MIN_V ≤ v ∧ v ≤ MAX_V

/-- All three volatilities of a bisection state lie in the band. -/
def BisectState.bandOK (s : BisectState) : Prop :=
  inBand s.v_low ∧ inBand s.v_high ∧ inBand s.v_mid

/-- The lower volatility limit is positive. -/
lemma MIN_V_pos : (0 : ℝ) < MIN_V := by
  norm_num [GBS_Limites.MIN_V]

/-- The volatility band is non-degenerate. -/
lemma band_le : MIN_V ≤ MAX_V := by
  norm_num [GBS_Limites.MIN_V, GBS_Limites.MAX_V]

/-- Clamping into the band always lands in the band. -/
lemma inBand_clamp (z : ℝ) : inBand (min MAX_V (max MIN_V z)) :=
  ⟨le_min band_le (le_max_left _ _), min_le_left _ _⟩

/-- The initial Newton-Raphson volatility is clamped into the band. -/
lemma newtonInit_band (val_fn : ValFn) (option_type : String) (x fs t b r cp : ℝ) :
    MIN_V ≤ (newtonInit val_fn option_type x fs t b r cp).v ∧
      (newtonInit val_fn option_type x fs t b r cp).v ≤ MAX_V :=
  ⟨le_min band_le (le_max_left _ _), min_le_left _ _⟩

/-- Two oracles that agree on the band give the same initial Newton-Raphson
state. -/
lemma newtonInit_congr (val_fn val_fn2 : ValFn) (option_type : String)
    (x fs t b r cp : ℝ)
    (hv : ∀ (o : String) (fs2 x2 t2 r2 b2 v : ℝ), MIN_V ≤ v → v ≤ MAX_V →
      val_fn o fs2 x2 t2 r2 b2 v = val_fn2 o fs2 x2 t2 r2 b2 v) :
    newtonInit val_fn option_type x fs t b r cp =
      newtonInit val_fn2 option_type x fs t b r cp := by
  simp only [newtonInit]
  rw [hv _ _ _ _ _ _ _ (inBand_clamp _).1 (inBand_clamp _).2]

/-- Two oracles that agree on the band drive the Newton-Raphson loop
identically: every pricing call of the loop happens inside the band. -/
lemma newtonLoop_congr (val_fn val_fn2 : ValFn) (option_type : String)
    (fs x t r b cp precision : ℝ)
    (hv : ∀ (o : String) (fs2 x2 t2 r2 b2 v : ℝ), MIN_V ≤ v → v ≤ MAX_V →
      val_fn o fs2 x2 t2 r2 b2 v = val_fn2 o fs2 x2 t2 r2 b2 v) :
    ∀ (fuel : ℕ) (s : NewtonState),
      newtonLoop val_fn option_type fs x t r b cp precision fuel s =
        newtonLoop val_fn2 option_type fs x t r b cp precision fuel s := by
  intro fuel
  induction fuel with
  | zero => intro s; rfl
  | succ n ih =>
    intro s
    simp only [newtonLoop]
    by_cases hc : precision ≤ |cp - s.res.value| ∧ |cp - s.res.value| ≤ s.min_diff
    · rw [if_pos hc, if_pos hc]
      by_cases hb : s.v - (s.res.value - cp) / s.res.vega > MAX_V ∨
          s.v - (s.res.value - cp) / s.res.vega < MIN_V
      · rw [if_pos hb, if_pos hb]
      · rw [if_neg hb, if_neg hb]
        push_neg at hb
        rw [hv _ _ _ _ _ _ _ hb.2 hb.1]
        exact ih _
    · rw [if_neg hc, if_neg hc]

/-- Along the Newton-Raphson loop, either the current volatility lies in
the band or the residual has not reached the precision: the loop leaves the
band only through the abort branch, whose state cannot pass the final
convergence test. -/
lemma newtonLoop_band_or_far (val_fn : ValFn) (option_type : String)
    (fs x t r b cp precision : ℝ) :
    ∀ (fuel : ℕ) (s : NewtonState),
      (MIN_V ≤ s.v ∧ s.v ≤ MAX_V) ∨ precision ≤ |cp - s.res.value| →
      (MIN_V ≤ (newtonLoop val_fn option_type fs x t r b cp precision fuel s).v ∧
        (newtonLoop val_fn option_type fs x t r b cp precision fuel s).v ≤ MAX_V) ∨
      precision ≤
        |cp - (newtonLoop val_fn option_type fs x t r b cp precision fuel s).res.value| := by
  intro fuel
  induction fuel with
  | zero => intro s h; exact h
  | succ n ih =>
    intro s h
    simp only [newtonLoop]
    by_cases hc : precision ≤ |cp - s.res.value| ∧ |cp - s.res.value| ≤ s.min_diff
    · rw [if_pos hc]
      by_cases hb : s.v - (s.res.value - cp) / s.res.vega > MAX_V ∨
          s.v - (s.res.value - cp) / s.res.vega < MIN_V
      · rw [if_pos hb]
        exact Or.inr hc.1
      · rw [if_neg hb]
        push_neg at hb
        exact ih _ (Or.inl ⟨hb.2, hb.1⟩)
    · rw [if_neg hc]
      exact h

/-- The initial bisection bracket and midpoint lie in the band. -/
lemma bisectInit_bandOK (val_fn : ValFn) (option_type : String)
    (fs x t r b cp : ℝ) :
    (bisectInit val_fn option_type fs x t r b cp).bandOK := by
  have h5 : MIN_V ≤ MAX_V := band_le
  have h0 : (0 : ℝ) < MIN_V := MIN_V_pos
  simp only [bisectInit]
  split
  · exact ⟨⟨le_refl _, h5⟩, ⟨h5, le_refl _⟩, ⟨by linarith, by linarith⟩⟩
  · next hcond =>
    push_neg at hcond
    obtain ⟨hlo, hhi⟩ := hcond
    refine ⟨⟨le_max_left _ _, max_le h5 (by linarith)⟩,
      ⟨le_min h5 (by linarith), min_le_left _ _⟩, ⟨le_of_lt hlo, le_of_lt hhi⟩⟩

/-- Two oracles that agree on the band give the same initial bisection
state. -/
lemma bisectInit_congr (val_fn val_fn2 : ValFn) (option_type : String)
    (fs x t r b cp : ℝ)
    (hv : ∀ (o : String) (fs2 x2 t2 r2 b2 v : ℝ), MIN_V ≤ v → v ≤ MAX_V →
      val_fn o fs2 x2 t2 r2 b2 v = val_fn2 o fs2 x2 t2 r2 b2 v) :
    bisectInit val_fn option_type fs x t r b cp =
      bisectInit val_fn2 option_type fs x t r b cp := by
  have h5 : MIN_V ≤ MAX_V := band_le
  simp only [bisectInit]
  split
  · rw [hv _ _ _ _ _ _ _ (by linarith) (by linarith)]
  · next hcond =>
    push_neg at hcond
    rw [hv _ _ _ _ _ _ _ (le_of_lt hcond.1) (le_of_lt hcond.2)]

/-- Two oracles that agree on the band drive the bisection loop
identically, and the loop keeps every bracket volatility and midpoint in
the band: all pricing calls of the loop happen inside the band. -/
lemma bisectLoop_congr_band (val_fn val_fn2 : ValFn) (option_type : String)
    (fs x t r b cp precision : ℝ)
    (hv : ∀ (o : String) (fs2 x2 t2 r2 b2 v : ℝ), MIN_V ≤ v → v ≤ MAX_V →
      val_fn o fs2 x2 t2 r2 b2 v = val_fn2 o fs2 x2 t2 r2 b2 v) :
    ∀ (fuel : ℕ) (s : BisectState), s.bandOK →
      bisectLoop val_fn option_type fs x t r b cp precision fuel s =
        bisectLoop val_fn2 option_type fs x t r b cp precision fuel s ∧
      (bisectLoop val_fn option_type fs x t r b cp precision fuel s).bandOK := by
  intro fuel
  induction fuel with
  | zero => intro s hs; exact ⟨rfl, hs⟩
  | succ n ih =>
    intro s hs
    by_cases hc : |cp - s.cp_mid| > precision
    · simp only [bisectLoop]
      rw [if_pos hc, if_pos hc]
      have hvl : inBand (if s.cp_mid < cp then s.v_mid else s.v_low) := by
        split
        · exact hs.2.2
        · exact hs.1
      have hvh : inBand (if s.cp_mid < cp then s.v_high else s.v_mid) := by
        split
        · exact hs.2.1
        · exact hs.2.2
      rw [hv _ _ _ _ _ _ _ hvl.1 hvl.2, hv _ _ _ _ _ _ _ hvh.1 hvh.2,
        hv _ _ _ _ _ _ _ (inBand_clamp _).1 (inBand_clamp _).2]
      exact ih _ ⟨hvl, hvh, inBand_clamp _⟩
    · simp only [bisectLoop]
      rw [if_neg hc, if_neg hc]
      exact ⟨rfl, hs⟩

/-- Claim C2: the solver only evaluates the pricing oracle inside the band,
in both phases (two oracles agreeing on the band produce identical solver
runs), and any volatility either phase returns lies in the band. -/
theorem solver_band (val_fn val_fn2 : ValFn) (option_type : String)
    (x fs t b r cp precision : ℝ) (max_steps : ℕ)
    (hv : ∀ (o : String) (fs2 x2 t2 r2 b2 v : ℝ), MIN_V ≤ v → v ≤ MAX_V →
      val_fn o fs2 x2 t2 r2 b2 v = val_fn2 o fs2 x2 t2 r2 b2 v) :
    (MIN_V = 0.005 ∧ MAX_V = 1) ∧
    _newton_vol_implicite val_fn option_type x fs t b r cp precision max_steps =
      _newton_vol_implicite val_fn2 option_type x fs t b r cp precision max_steps ∧
    _rech_dichotomique_vol_implicite val_fn option_type fs x t r b cp precision max_steps =
      _rech_dichotomique_vol_implicite val_fn2 option_type fs x t r b cp precision max_steps ∧
    (∀ vres : ℝ,
      _newton_vol_implicite val_fn option_type x fs t b r cp precision max_steps =
        Except.ok vres → MIN_V ≤ vres ∧ vres ≤ MAX_V) ∧
    (∀ vres : ℝ,
      _rech_dichotomique_vol_implicite val_fn option_type fs x t r b cp precision max_steps =
        Except.ok vres → MIN_V ≤ vres ∧ vres ≤ MAX_V) := by
  have hbisEq : _rech_dichotomique_vol_implicite val_fn option_type fs x t r b cp precision
      max_steps =
      _rech_dichotomique_vol_implicite val_fn2 option_type fs x t r b cp precision max_steps := by
    simp only [_rech_dichotomique_vol_implicite, bisectFinal]
    rw [bisectInit_congr val_fn val_fn2 _ _ _ _ _ _ _ hv,
      (bisectLoop_congr_band val_fn val_fn2 _ _ _ _ _ _ _ _ hv max_steps _
        (bisectInit_bandOK val_fn2 _ _ _ _ _ _ _)).1]
  have hbisBand : ∀ vres : ℝ,
      _rech_dichotomique_vol_implicite val_fn option_type fs x t r b cp precision max_steps =
        Except.ok vres → MIN_V ≤ vres ∧ vres ≤ MAX_V := by
    intro vres h
    have hfin : (bisectFinal val_fn option_type fs x t r b cp precision max_steps).bandOK :=
      (bisectLoop_congr_band val_fn val_fn _ _ _ _ _ _ _ _
        (fun _ _ _ _ _ _ _ _ _ => rfl) max_steps _
        (bisectInit_bandOK val_fn _ _ _ _ _ _ _)).2
    simp only [_rech_dichotomique_vol_implicite] at h
    by_cases hcond :
        |cp - (bisectFinal val_fn option_type fs x t r b cp precision max_steps).cp_mid| <
          precision
    · rw [if_pos hcond] at h
      rw [← Except.ok.inj h]
      exact hfin.2.2
    · rw [if_neg hcond] at h
      exact Except.noConfusion h
  have hnewEq : _newton_vol_implicite val_fn option_type x fs t b r cp precision max_steps =
      _newton_vol_implicite val_fn2 option_type x fs t b r cp precision max_steps := by
    simp only [_newton_vol_implicite, newtonFinal]
    rw [newtonInit_congr val_fn val_fn2 _ _ _ _ _ _ _ hv,
      newtonLoop_congr val_fn val_fn2 _ _ _ _ _ _ _ _ hv max_steps _, hbisEq]
  have hnewBand : ∀ vres : ℝ,
      _newton_vol_implicite val_fn option_type x fs t b r cp precision max_steps =
        Except.ok vres → MIN_V ≤ vres ∧ vres ≤ MAX_V := by
    intro vres h
    simp only [_newton_vol_implicite] at h
    by_cases hcond :
        |cp - (newtonFinal val_fn option_type x fs t b r cp precision
          max_steps).res.value| < precision
    · rw [if_pos hcond] at h
      have hinv := newtonLoop_band_or_far val_fn option_type fs x t r b cp precision
        max_steps (newtonInit val_fn option_type x fs t b r cp)
        (Or.inl (newtonInit_band val_fn option_type x fs t b r cp))
      cases hinv with
      | inl hband2 =>
        rw [← Except.ok.inj h]
        exact hband2
      | inr hfar => exact absurd hcond (not_lt.mpr hfar)
    · rw [if_neg hcond] at h
      exact hbisBand vres h
  exact ⟨⟨by norm_num [GBS_Limites.MIN_V], by norm_num [GBS_Limites.MAX_V]⟩,
    hnewEq, hbisEq, hnewBand, hbisBand⟩

/-- Constant pricing oracle used by the witness of claim C2. -/
def valC2 : ValFn := fun _ _ _ _ _ _ _ =>
  { value := 0, delta := 0, gamma := 0, theta := 0, vega := 1, rho := 0 }

/-- Second constant pricing oracle used by the witness of claim C2; it
agrees with the first on the band. -/
def valC2b : ValFn := fun _ _ _ _ _ _ _ =>
  { value := 0, delta := 0, gamma := 0, theta := 0, vega := 1, rho := 0 }

/-- Witness for claim C2 at concrete oracles and inputs. -/
theorem solver_band_witness :
    valC2 "c" 1 1 1 1 1 MIN_V = valC2b "c" 1 1 1 1 1 MIN_V ∧
    _newton_vol_implicite valC2 "c" 1 1 1 1 1 1 0.5 2 =
      _newton_vol_implicite valC2b "c" 1 1 1 1 1 1 0.5 2 ∧
    _rech_dichotomique_vol_implicite valC2 "c" 1 1 1 1 1 1 0.5 2 =
      _rech_dichotomique_vol_implicite valC2b "c" 1 1 1 1 1 1 0.5 2 :=
  ⟨rfl,
    (solver_band valC2 valC2b "c" 1 1 1 1 1 1 0.5 2 (fun _ _ _ _ _ _ _ _ _ => rfl)).2.1,
    (solver_band valC2 valC2b "c" 1 1 1 1 1 1 0.5 2 (fun _ _ _ _ _ _ _ _ _ => rfl)).2.2.1⟩

/-- Python arithmetic failure modes of the pricing formulas: division by
zero, and the math domain error of log and sqrt. -/
inductive PyArithError where
  | zero_division
  | value_error
deriving DecidableEq

/-- Partial-semantics pricing function: the same computation as the total
model, raising exactly where the arithmetic of the source is undefined, in
the evaluation order of the source. Sqrt of a negative time raises a value
error; a zero strike raises a zero division on fs / x; a non-positive log
argument raises a value error; a zero d1 denominator v * sqrt t raises a
zero division. Under these guards every later denominator of the formulas
is provably non-zero (fs is non-zero because fs / x is positive, and
sqrt t is non-zero because v * sqrt t is), so the remaining computation is
total and agrees with the total model. -/
def gbsExc (option_type : String) (fs x t r b v : ℝ) :
    Except PyArithError PricingResult :=
  if t < 0 then Except.error PyArithError.value_error
  else if x = 0 then Except.error PyArithError.zero_division
  else if fs / x ≤ 0 then Except.error PyArithError.value_error
  else if v * Real.sqrt t = 0 then Except.error PyArithError.zero_division
  else Except.ok (_gbs option_type fs x t r b v)

/-- Counterexample to claim C8 as stated: a zero strike lies below its
domain limit, and there the pricing function does not return a result
tuple at all: the source raises a zero division on fs / x before
producing any output. -/
theorem gbs_aborts_at_zero_strike :
    (0 : ℝ) < MIN_X ∧
    gbsExc "c" 1 0 1 1 1 1 = Except.error PyArithError.zero_division := by
  constructor
  · norm_num [GBS_Limites.MIN_X]
  · simp only [gbsExc, if_true]
    rw [if_neg (by norm_num : ¬ (1 : ℝ) < 0)]

/-- Claim C8 as amended: the domain checks never abort pricing: an
out-of-range input produces at least one diagnostic, yet whenever the
arithmetic of the formulas is defined (non-negative time, non-zero strike,
positive log argument, non-zero d1 denominator) the pricing function still
returns the full six-component tuple computed from the usual formulas;
only undefined arithmetic aborts, with a Python arithmetic error and never
with a domain error. -/
theorem out_of_range_no_abort (option_type : String) (fs x t r b v : ℝ)
    (hdef1 : ¬ t < 0) (hdef2 : ¬ x = 0) (hdef3 : ¬ fs / x ≤ 0)
    (hdef4 : ¬ v * Real.sqrt t = 0)
    (h : x < MIN_X ∨ x > MAX_X ∨ fs < MIN_FS ∨ fs > MAX_FS ∨ t < MIN_T ∨ t > MAX_T ∨
      b < MIN_b ∨ b > MAX_b ∨ r < MIN_r ∨ r > MAX_r ∨ v < MIN_V ∨ v > MAX_V) :
    _gbs_test_inputs option_type fs x t r b v ≠ [] ∧
    gbsExc option_type fs x t r b v = Except.ok (_gbs option_type fs x t r b v) ∧
    _gbs option_type fs x t r b v =
      (if option_type = "c" then
        { value := fs * Real.exp ((b - r) * t) *
            normCdf ((Real.log (fs / x) + (b + (v * v) / 2) * t) / (v * Real.sqrt t)) -
            x * Real.exp (-r * t) *
            normCdf ((Real.log (fs / x) + (b + (v * v) / 2) * t) / (v * Real.sqrt t) -
              v * Real.sqrt t)
          delta := Real.exp ((b - r) * t) *
            normCdf ((Real.log (fs / x) + (b + (v * v) / 2) * t) / (v * Real.sqrt t))
          gamma := Real.exp ((b - r) * t) *
            normPdf ((Real.log (fs / x) + (b + (v * v) / 2) * t) / (v * Real.sqrt t)) /
            (fs * v * Real.sqrt t)
          theta := -(fs * v * Real.exp ((b - r) * t) *
              normPdf ((Real.log (fs / x) + (b + (v * v) / 2) * t) / (v * Real.sqrt t))) /
              (2 * Real.sqrt t) -
            (b - r) * fs * Real.exp ((b - r) * t) *
              normCdf ((Real.log (fs / x) + (b + (v * v) / 2) * t) / (v * Real.sqrt t)) -
            r * x * Real.exp (-r * t) *
              normCdf ((Real.log (fs / x) + (b + (v * v) / 2) * t) / (v * Real.sqrt t) -
                v * Real.sqrt t)
          vega := Real.exp ((b - r) * t) * fs * Real.sqrt t *
            normPdf ((Real.log (fs / x) + (b + (v * v) / 2) * t) / (v * Real.sqrt t))
          rho := x * t * Real.exp (-r * t) *
            normCdf ((Real.log (fs / x) + (b + (v * v) / 2) * t) / (v * Real.sqrt t) -
              v * Real.sqrt t) }
      else
        { value := x * Real.exp (-r * t) *
            normCdf (-((Real.log (fs / x) + (b + (v * v) / 2) * t) / (v * Real.sqrt t) -
              v * Real.sqrt t)) -
            fs * Real.exp ((b - r) * t) *
            normCdf (-((Real.log (fs / x) + (b + (v * v) / 2) * t) / (v * Real.sqrt t)))
          delta := -Real.exp ((b - r) * t) *
            normCdf (-((Real.log (fs / x) + (b + (v * v) / 2) * t) / (v * Real.sqrt t)))
          gamma := Real.exp ((b - r) * t) *
            normPdf ((Real.log (fs / x) + (b + (v * v) / 2) * t) / (v * Real.sqrt t)) /
            (fs * v * Real.sqrt t)
          theta := -(fs * v * Real.exp ((b - r) * t) *
              normPdf ((Real.log (fs / x) + (b + (v * v) / 2) * t) / (v * Real.sqrt t))) /
              (2 * Real.sqrt t) +
            (b - r) * fs * Real.exp ((b - r) * t) *
              normCdf (-((Real.log (fs / x) + (b + (v * v) / 2) * t) / (v * Real.sqrt t))) +
            r * x * Real.exp (-r * t) *
              normCdf (-((Real.log (fs / x) + (b + (v * v) / 2) * t) / (v * Real.sqrt t) -
                v * Real.sqrt t))
          vega := Real.exp ((b - r) * t) * fs * Real.sqrt t *
            normPdf ((Real.log (fs / x) + (b + (v * v) / 2) * t) / (v * Real.sqrt t))
          rho := -x * t * Real.exp (-r * t) *
            normCdf (-((Real.log (fs / x) + (b + (v * v) / 2) * t) / (v * Real.sqrt t) -
              v * Real.sqrt t)) }) := by
  refine ⟨?_, ?_, rfl⟩
  · intro heq
    simp only [_gbs_test_inputs, List.append_eq_nil] at heq
    obtain ⟨⟨⟨⟨⟨⟨h0, h1⟩, h2⟩, h3⟩, h4⟩, h5⟩, h6⟩ := heq
    rcases h with hx | hx | hx | hx | hx | hx | hx | hx | hx | hx | hx | hx
    · rw [if_pos (Or.inl hx)] at h1
      exact List.noConfusion h1
    · rw [if_pos (Or.inr hx)] at h1
      exact List.noConfusion h1
    · rw [if_pos (Or.inl hx)] at h2
      exact List.noConfusion h2
    · rw [if_pos (Or.inr hx)] at h2
      exact List.noConfusion h2
    · rw [if_pos (Or.inl hx)] at h3
      exact List.noConfusion h3
    · rw [if_pos (Or.inr hx)] at h3
      exact List.noConfusion h3
    · rw [if_pos (Or.inl hx)] at h4
      exact List.noConfusion h4
    · rw [if_pos (Or.inr hx)] at h4
      exact List.noConfusion h4
    · rw [if_pos (Or.inl hx)] at h5
      exact List.noConfusion h5
    · rw [if_pos (Or.inr hx)] at h5
      exact List.noConfusion h5
    · rw [if_pos (Or.inl hx)] at h6
      exact List.noConfusion h6
    · rw [if_pos (Or.inr hx)] at h6
      exact List.noConfusion h6
  · simp only [gbsExc]
    rw [if_neg hdef1, if_neg hdef2, if_neg hdef3, if_neg hdef4]

/-- Witness for the amended claim C8 at a volatility above its upper
limit, where the arithmetic is defined. -/
theorem out_of_range_no_abort_witness :
    ((2 : ℝ) > MAX_V ∧ ¬ (2 : ℝ) * Real.sqrt 1 = 0) ∧
    _gbs_test_inputs "c" 1 1 1 1 1 2 ≠ [] ∧
    gbsExc "c" 1 1 1 1 1 2 = Except.ok (_gbs "c" 1 1 1 1 1 2) := by
  have hv : (2 : ℝ) > MAX_V := by norm_num [GBS_Limites.MAX_V]
  have h4 : ¬ (2 : ℝ) * Real.sqrt 1 = 0 := by
    rw [Real.sqrt_one]
    norm_num
  have happ := out_of_range_no_abort "c" 1 1 1 1 1 2 (by norm_num) (by norm_num)
    (by norm_num) h4
    (Or.inr (Or.inr (Or.inr (Or.inr (Or.inr (Or.inr (Or.inr (Or.inr (Or.inr
      (Or.inr (Or.inr hv)))))))))))
  exact ⟨⟨hv, h4⟩, happ.1, happ.2.1⟩

/-- Any option type other than c takes the put branch of the pricing
function. -/
lemma gbs_ot_put (option_type : String) (hot : option_type ≠ "c")
    (fs x t r b v : ℝ) :
    _gbs option_type fs x t r b v = _gbs "p" fs x t r b v := by
  have hpc : ¬ (("p" : String) = "c") := by decide
  simp only [_gbs]
  rw [if_neg hot, if_neg hpc]

/-- Any option type other than c takes the put branch of the starting
estimate. -/
lemma approx_ot_put (option_type : String) (hot : option_type ≠ "c")
    (fs x t r b cp : ℝ) :
    _vol_implicite_approx option_type fs x t r b cp =
      _vol_implicite_approx "p" fs x t r b cp := by
  have hpc : ¬ (("p" : String) = "c") := by decide
  simp only [_vol_implicite_approx]
  rw [if_neg hot, if_neg hpc]

/-- The Newton-Raphson loop treats two option types identically when the
oracle does. -/
lemma newtonLoop_ot_congr (val_fn : ValFn) (ot ot2 : String)
    (hfn : ∀ fs2 x2 t2 r2 b2 v2 : ℝ,
      val_fn ot fs2 x2 t2 r2 b2 v2 = val_fn ot2 fs2 x2 t2 r2 b2 v2)
    (fs x t r b cp precision : ℝ) :
    ∀ (fuel : ℕ) (s : NewtonState),
      newtonLoop val_fn ot fs x t r b cp precision fuel s =
        newtonLoop val_fn ot2 fs x t r b cp precision fuel s := by
  intro fuel
  induction fuel with
  | zero => intro s; rfl
  | succ n ih =>
    intro s
    simp only [newtonLoop]
    by_cases hc : precision ≤ |cp - s.res.value| ∧ |cp - s.res.value| ≤ s.min_diff
    · rw [if_pos hc, if_pos hc]
      by_cases hb : s.v - (s.res.value - cp) / s.res.vega > MAX_V ∨
          s.v - (s.res.value - cp) / s.res.vega < MIN_V
      · rw [if_pos hb, if_pos hb]
      · rw [if_neg hb, if_neg hb, hfn _ _ _ _ _ _]
        exact ih _
    · rw [if_neg hc, if_neg hc]

/-- The bisection loop treats two option types identically when the oracle
does. -/
lemma bisectLoop_ot_congr (val_fn : ValFn) (ot ot2 : String)
    (hfn : ∀ fs2 x2 t2 r2 b2 v2 : ℝ,
      val_fn ot fs2 x2 t2 r2 b2 v2 = val_fn ot2 fs2 x2 t2 r2 b2 v2)
    (fs x t r b cp precision : ℝ) :
    ∀ (fuel : ℕ) (s : BisectState),
      bisectLoop val_fn ot fs x t r b cp precision fuel s =
        bisectLoop val_fn ot2 fs x t r b cp precision fuel s := by
  intro fuel
  induction fuel with
  | zero => intro s; rfl
  | succ n ih =>
    intro s
    simp only [bisectLoop]
    by_cases hc : |cp - s.cp_mid| > precision
    · rw [if_pos hc, if_pos hc, hfn _ _ _ _ _ _, hfn _ _ _ _ _ _, hfn _ _ _ _ _ _]
      exact ih _
    · rw [if_neg hc, if_neg hc]

/-- The bisection phase treats two option types identically when the oracle
and the starting estimate do. -/
lemma rech_ot_congr (val_fn : ValFn) (ot ot2 : String)
    (hfn : ∀ fs2 x2 t2 r2 b2 v2 : ℝ,
      val_fn ot fs2 x2 t2 r2 b2 v2 = val_fn ot2 fs2 x2 t2 r2 b2 v2)
    (fs x t r b cp precision : ℝ) (max_steps : ℕ)
    (happrox : _vol_implicite_approx ot fs x t r b cp =
      _vol_implicite_approx ot2 fs x t r b cp) :
    _rech_dichotomique_vol_implicite val_fn ot fs x t r b cp precision max_steps =
      _rech_dichotomique_vol_implicite val_fn ot2 fs x t r b cp precision max_steps := by
  have hinit : bisectInit val_fn ot fs x t r b cp = bisectInit val_fn ot2 fs x t r b cp := by
    simp only [bisectInit]
    rw [happrox]
    split
    · rw [hfn _ _ _ _ _ _]
    · rw [hfn _ _ _ _ _ _]
  simp only [_rech_dichotomique_vol_implicite, bisectFinal]
  rw [hinit, bisectLoop_ot_congr val_fn ot ot2 hfn _ _ _ _ _ _ _ max_steps _]

/-- Claim C9: any option type other than c, including invalid codes, is
silently priced as a put by the pricing engine, by the starting estimate,
by the full Newton-Raphson solver and by the bisection phase. -/
theorem invalid_option_type_priced_as_put (option_type : String)
    (fs x t r b v cp precision : ℝ) (max_steps : ℕ) (hot : option_type ≠ "c") :
    _gbs option_type fs x t r b v = _gbs "p" fs x t r b v ∧
    _vol_implicite_approx option_type fs x t r b cp =
      _vol_implicite_approx "p" fs x t r b cp ∧
    _gbs_vol_implicite option_type fs x t r b cp precision max_steps =
      _gbs_vol_implicite "p" fs x t r b cp precision max_steps ∧
    _rech_dichotomique_vol_implicite _gbs option_type fs x t r b cp precision max_steps =
      _rech_dichotomique_vol_implicite _gbs "p" fs x t r b cp precision max_steps := by
  have hfn : ∀ fs2 x2 t2 r2 b2 v2 : ℝ,
      _gbs option_type fs2 x2 t2 r2 b2 v2 = _gbs "p" fs2 x2 t2 r2 b2 v2 :=
    fun fs2 x2 t2 r2 b2 v2 => gbs_ot_put option_type hot fs2 x2 t2 r2 b2 v2
  have happrox : ∀ fs2 x2 t2 r2 b2 cp2 : ℝ,
      _vol_implicite_approx option_type fs2 x2 t2 r2 b2 cp2 =
        _vol_implicite_approx "p" fs2 x2 t2 r2 b2 cp2 :=
    fun fs2 x2 t2 r2 b2 cp2 => approx_ot_put option_type hot fs2 x2 t2 r2 b2 cp2
  have hrech : _rech_dichotomique_vol_implicite _gbs option_type fs x t r b cp precision
      max_steps =
      _rech_dichotomique_vol_implicite _gbs "p" fs x t r b cp precision max_steps :=
    rech_ot_congr _gbs option_type "p" hfn fs x t r b cp precision max_steps
      (happrox fs x t r b cp)
  refine ⟨hfn fs x t r b v, happrox fs x t r b cp, ?_, hrech⟩
  have hinit : newtonInit _gbs option_type x fs t b r cp =
      newtonInit _gbs "p" x fs t b r cp := by
    simp only [newtonInit]
    rw [happrox fs x t r b cp, hfn _ _ _ _ _ _]
  simp only [_gbs_vol_implicite, _newton_vol_implicite, newtonFinal]
  rw [hinit, newtonLoop_ot_congr _gbs option_type "p" hfn _ _ _ _ _ _ _ max_steps _, hrech]

/-- Witness for claim C9 at a concrete invalid option type. -/
theorem invalid_option_type_priced_as_put_witness :
    ("x" : String) ≠ "c" ∧
    _gbs "x" 1 1 1 1 1 1 = _gbs "p" 1 1 1 1 1 1 ∧
    _gbs_vol_implicite "x" 1 1 1 1 1 1 0.5 3 =
      _gbs_vol_implicite "p" 1 1 1 1 1 1 0.5 3 :=
  ⟨by decide,
    (invalid_option_type_priced_as_put "x" 1 1 1 1 1 1 1 0.5 3 (by decide)).1,
    (invalid_option_type_priced_as_put "x" 1 1 1 1 1 1 1 0.5 3 (by decide)).2.2.1⟩
